import Mathlib

/-!
Shallow embedding of the chunk-graph core of the bundler repository:
`src/lib/Module.js` (module node) and the chunk node source file
(`Chunk`, provided unnamed).  Chunks, modules and chunk groups are addressed
by natural-number handles; the mutable object graph is a `World` record with
one field per object table.  JavaScript `Set` collections are modelled as
duplicate-free lists in insertion order; `Set.add` appends when absent,
`Set.delete` filters.  JavaScript `undefined`/`null` slots are `Option`s.
-/

namespace WebpackCore

/-- One chunk record: `name`, `entryModule`, the `_modules` set and the
`_groups` set of `Chunk` (insertion-order element lists). -/
structure ChunkData where
  name : Option String
  entryModule : Option Nat
  modules : List Nat
  groups : List Nat
deriving DecidableEq

/-- One chunk-group record, the external `ChunkGroup` contract consumed by the
core: member chunks, parent groups and the initial flag. -/
structure GroupData where
  chunks : List Nat
  parents : List Nat
  initFlag : Bool
deriving DecidableEq

/-- The whole mutable graph: chunk table, group table, each module's `_chunks`
set and each module's reported `size()`. -/
structure World where
  chunk : Nat → ChunkData
  group : Nat → GroupData
  modChunks : Nat → List Nat
  modSize : Nat → ℚ

/-- JS `Set.add`: append the element when it is not yet present. -/
def setAdd (l : List Nat) (x : Nat) : List Nat :=
  if x ∈ l then l else l ++ [x]

/-- JS `Set.delete`: drop the element. -/
def setDelete (l : List Nat) (x : Nat) : List Nat :=
  l.filter (fun y => y ≠ x)

theorem mem_setAdd {l : List Nat} {x y : Nat} :
    y ∈ setAdd l x ↔ y ∈ l ∨ y = x := by
  unfold setAdd
  by_cases h : x ∈ l
  · simp only [if_pos h]
    constructor
    · exact Or.inl
    · rintro (h1 | rfl)
      · exact h1
      · exact h
  · simp [h]

theorem mem_setAdd_self (l : List Nat) (x : Nat) : x ∈ setAdd l x :=
  mem_setAdd.mpr (Or.inr rfl)

theorem mem_setAdd_of_mem {l : List Nat} {x y : Nat} (h : y ∈ l) :
    y ∈ setAdd l x := mem_setAdd.mpr (Or.inl h)

theorem mem_setDelete {l : List Nat} {x y : Nat} :
    y ∈ setDelete l x ↔ y ∈ l ∧ y ≠ x := by
  simp [setDelete]

theorem not_mem_setDelete (l : List Nat) (x : Nat) : x ∉ setDelete l x := by
  simp [setDelete]

/-- Update one chunk record. -/
def updChunk (w : World) (c : Nat) (f : ChunkData → ChunkData) : World :=
  { w with chunk := fun i => if i = c then f (w.chunk i) else w.chunk i }

/-- Update one group record. -/
def updGroup (w : World) (g : Nat) (f : GroupData → GroupData) : World :=
  { w with group := fun i => if i = g then f (w.group i) else w.group i }

/-- Update one module's chunk set. -/
def updModChunks (w : World) (m : Nat) (l : List Nat) : World :=
  { w with modChunks := fun i => if i = m then l else w.modChunks i }

@[simp] theorem updChunk_chunk_self (w : World) (c : Nat) (f : ChunkData → ChunkData) :
    (updChunk w c f).chunk c = f (w.chunk c) := by simp [updChunk]

theorem updChunk_chunk_ne (w : World) {c d : Nat} (f : ChunkData → ChunkData)
    (h : d ≠ c) : (updChunk w c f).chunk d = w.chunk d := by simp [updChunk, h]

@[simp] theorem updChunk_group (w : World) (c : Nat) (f : ChunkData → ChunkData) :
    (updChunk w c f).group = w.group := rfl

@[simp] theorem updChunk_modChunks (w : World) (c : Nat) (f : ChunkData → ChunkData) :
    (updChunk w c f).modChunks = w.modChunks := rfl

@[simp] theorem updChunk_modSize (w : World) (c : Nat) (f : ChunkData → ChunkData) :
    (updChunk w c f).modSize = w.modSize := rfl

@[simp] theorem updGroup_group_self (w : World) (g : Nat) (f : GroupData → GroupData) :
    (updGroup w g f).group g = f (w.group g) := by simp [updGroup]

theorem updGroup_group_ne (w : World) {g h : Nat} (f : GroupData → GroupData)
    (hne : h ≠ g) : (updGroup w g f).group h = w.group h := by simp [updGroup, hne]

@[simp] theorem updGroup_chunk (w : World) (g : Nat) (f : GroupData → GroupData) :
    (updGroup w g f).chunk = w.chunk := rfl

@[simp] theorem updGroup_modChunks (w : World) (g : Nat) (f : GroupData → GroupData) :
    (updGroup w g f).modChunks = w.modChunks := rfl

@[simp] theorem updModChunks_self (w : World) (m : Nat) (l : List Nat) :
    (updModChunks w m l).modChunks m = l := by simp [updModChunks]

theorem updModChunks_ne (w : World) {m n : Nat} (l : List Nat) (h : n ≠ m) :
    (updModChunks w m l).modChunks n = w.modChunks n := by simp [updModChunks, h]

@[simp] theorem updModChunks_chunk (w : World) (m : Nat) (l : List Nat) :
    (updModChunks w m l).chunk = w.chunk := rfl

@[simp] theorem updModChunks_group (w : World) (m : Nat) (l : List Nat) :
    (updModChunks w m l).group = w.group := rfl

/-- `Chunk.isInitial`: the source loops over `this._groups` but returns inside
the first iteration ("We only need to check the first one"), so only the first
owning group's flag is consulted; an empty group set yields `false`. -/
def isInitial (w : World) (c : Nat) : Bool :=
  match (w.chunk c).groups with
  | [] => false
  | g :: _ => (w.group g).initFlag

/-- `Chunk.hasEntryModule`: `!!this.entryModule` (a module object is always
truthy). -/
def hasEntryModule (w : World) (c : Nat) : Bool :=
  (w.chunk c).entryModule.isSome

/-- `Chunk.isInGroup`: membership in `this._groups`. -/
def isInGroup (w : World) (c g : Nat) : Bool :=
  (w.chunk c).groups.contains g

/-- `Chunk.containsModule`: membership in `this._modules`. -/
def containsModule (w : World) (c m : Nat) : Bool :=
  (w.chunk c).modules.contains m

/-- `Chunk.isEmpty`: `this._modules.size === 0`. -/
def isEmpty (w : World) (c : Nat) : Bool :=
  (w.chunk c).modules.isEmpty

/-- `Chunk.addGroup`: add the group to `this._groups` (JS `Set.add` ignores a
present element; the boolean result is dropped by `integrate`). -/
def addGroup (w : World) (c g : Nat) : World :=
  updChunk w c (fun cd => { cd with groups := setAdd cd.groups g })

/-- JS property read on the groups `SortableSet` object: the set defines a
`size` property; reading any other property name yields `undefined` (`none`). -/
def sortableSetGetProp (elems : List Nat) (prop : String) : Option Nat :=
  if prop = "size" then some elems.length else none

/-- `Chunk.getNumberOfGroups`: the source returns `this._groups.siz` — note the
misspelled property name. -/
def getNumberOfGroups (w : World) (c : Nat) : Option Nat :=
  sortableSetGetProp (w.chunk c).groups "siz"

/-- The `chunk.removeModule(this)` callback performed inside
`Module.removeChunk`: delete the module from the chunk's `_modules`; the
callback's own recursive `module.removeChunk(chunk)` finds the chunk already
deleted from the module's set and returns `false` with no effect, so it is
elided here. -/
def removeModuleCallback (w : World) (c m : Nat) : World :=
  if (w.chunk c).modules.contains m then
    updChunk w c (fun cd => { cd with modules := setDelete cd.modules m })
  else w

/-- `Module.removeChunk(chunk)`: when the chunk is present in `this._chunks`,
delete it and call `chunk.removeModule(this)` (see `removeModuleCallback`).
Returns whether a change occurred. -/
def Module.removeChunk (w : World) (m c : Nat) : World × Bool :=
  if (w.modChunks m).contains c then
    (removeModuleCallback (updModChunks w m (setDelete (w.modChunks m) c)) c m, true)
  else (w, false)

/-- Modelled from the spec: `GraphHelpers.connectChunkAndModule` (the Graph
Mutation Facade source file is not included under `src/`) creates a
module-chunk edge updating both sides, "guaranteeing both sides of the edge
stay symmetric". -/
def connectChunkAndModule (w : World) (c m : Nat) : World :=
  updChunk (updModChunks w m (setAdd (w.modChunks m) c)) c
    (fun cd => { cd with modules := setAdd cd.modules m })

/-- Modelled from the spec: `GraphHelpers.disconnectChunkAndModule` (source
file not included under `src/`) destroys a module-chunk edge on both sides. -/
def disconnectChunkAndModule (w : World) (c m : Nat) : World :=
  updChunk (updModChunks w m (setDelete (w.modChunks m) c)) c
    (fun cd => { cd with modules := setDelete cd.modules m })

/-- Modelled from the spec: `ChunkGroup.replaceChunk(old, new)` (the
`ChunkGroup` source file is not included under `src/`; the spec says the group
is "repointed to own `this` instead (replace-in-place)"): every occurrence of
the old chunk in the group's member list becomes the new chunk. -/
def ChunkGroup.replaceChunk (w : World) (g oldC newC : Nat) : World :=
  updGroup w g (fun gd =>
    { gd with chunks := gd.chunks.map (fun x => if x = oldC then newC else x) })

/-- Modelled from the spec: `ChunkGroup.removeChunk(chunk)` (source file not
included under `src/`) removes the chunk from the group's member chunks. -/
def ChunkGroup.removeChunk (w : World) (g c : Nat) : World :=
  updGroup w g (fun gd => { gd with chunks := setDelete gd.chunks c })

/-- `Chunk.moveModule(module, otherChunk)`: disconnect from `this`, connect to
the target, both through the facade. -/
def moveModule (w : World) (c m oc : Nat) : World :=
  connectChunkAndModule (disconnectChunkAndModule w c m) oc m

/-- The module loop of `Chunk.remove()`: iterate a clone of `this._modules`
and call `module.removeChunk(this)` for each. -/
def removeAllModuleEdges (w : World) (c : Nat) (ms : List Nat) : World :=
  ms.foldl (fun acc m => (Module.removeChunk acc m c).1) w

/-- The group loop of `Chunk.remove()`: call `chunkGroup.removeChunk(this)`
for every owning group. -/
def removeFromAllGroups (w : World) (c : Nat) (gs : List Nat) : World :=
  gs.foldl (fun acc g => ChunkGroup.removeChunk acc g c) w

/-- `Chunk.remove()`: for each member module (iterating a clone of
`this._modules`) call `module.removeChunk(this)`; then for each owning group
call `chunkGroup.removeChunk(this)`.  Note that `this._groups` itself is never
cleared. -/
def Chunk.remove (w : World) (c : Nat) : World :=
  removeFromAllGroups (removeAllModuleEdges w c (w.chunk c).modules) c
    ((removeAllModuleEdges w c (w.chunk c).modules).chunk c).groups

/-- Worklist loop of the local `isAvailable(a, b)` helper inside
`Chunk.canBeIntegrated`: the JS `for (const chunkGroup of queue)` iterates the
`Set` in insertion order while `queue.add(parent)` appends parents not yet
present (anywhere in the set, processed or pending).  `done` holds the
processed prefix, the head of the third argument is the current element.  The
`fuel` bound is structural only; it is never exhausted for adequate fuel. -/
def isAvailableGo (w : World) (a : Nat) : Nat → List Nat → List Nat → Bool
  | _, _, [] => true
  | 0, _, _ :: _ => true
  | fuel + 1, done, g :: todo =>
    if isInGroup w a g then
      isAvailableGo w a fuel (done ++ [g]) todo
    else if (w.group g).initFlag then
      false
    else
      let todo2 := (w.group g).parents.foldl
        (fun t p => if (done ++ g :: t).contains p then t else t ++ [p]) todo
      isAvailableGo w a fuel (done ++ [g]) todo2

/-- `isAvailable(a, b)` from `Chunk.canBeIntegrated`: start from
`new Set(b.groupsIterable)`. -/
def isAvailable (w : World) (fuel : Nat) (a b : Nat) : Bool :=
  isAvailableGo w a fuel [] (w.chunk b).groups

/-- `Chunk.canBeIntegrated(otherChunk)`: when the initial flags differ the
check is the directional `isAvailable` reachability test (and the trailing
`else` branch is the source's unreachable `return false`); only when the flags
agree are the entry modules consulted. -/
def canBeIntegrated (w : World) (fuel : Nat) (a b : Nat) : Bool :=
  if isInitial w a != isInitial w b then
    if isInitial w a then isAvailable w fuel a b
    else if isInitial w b then isAvailable w fuel b a
    else false
  else if hasEntryModule w a || hasEntryModule w b then false
  else true

/-- Worklist loop of `Module.isAccessibleInChunkGroup` as written in
`src/lib/Module.js`: the current queue element is `cg` (head of the third
argument), but steps 2 and 3 of the source read `chunkGroup` — the original
argument — both for the initial-flag bailout and for the parents that are
enqueued. -/
def isAccessibleGo (w : World) (m chunkGroup : Nat) (ignoreChunk : Option Nat) :
    Nat → List Nat → List Nat → Bool
  | _, _, [] => true
  | 0, _, _ :: _ => true
  | fuel + 1, done, cg :: todo =>
    if (w.group cg).chunks.any
        (fun c => ignoreChunk != some c && containsModule w c m) then
      isAccessibleGo w m chunkGroup ignoreChunk fuel (done ++ [cg]) todo
    else if (w.group chunkGroup).initFlag then
      false
    else
      let todo2 := (w.group chunkGroup).parents.foldl
        (fun t p => if (done ++ cg :: t).contains p then t else t ++ [p]) todo
      isAccessibleGo w m chunkGroup ignoreChunk fuel (done ++ [cg]) todo2

/-- `Module.isAccessibleInChunkGroup(chunkGroup, ignoreChunk)` for module `m`,
embedded as written in the source (see `isAccessibleGo`). -/
def isAccessibleInChunkGroup (w : World) (m fuel chunkGroup : Nat)
    (ignoreChunk : Option Nat) : Bool :=
  isAccessibleGo w m chunkGroup ignoreChunk fuel [] [chunkGroup]

/-- Modelled from the spec: the breadth-first traversal the specification (and
the source's own step comments) describe for `isAccessibleInChunkGroup` — for
each visited group `cg` with no satisfying chunk, the check fails when `cg`
itself is initial, and otherwise `cg`'s own parents are enqueued. -/
def isAccessibleSpecGo (w : World) (m : Nat) (ignoreChunk : Option Nat) :
    Nat → List Nat → List Nat → Bool
  | _, _, [] => true
  | 0, _, _ :: _ => true
  | fuel + 1, done, cg :: todo =>
    if (w.group cg).chunks.any
        (fun c => ignoreChunk != some c && containsModule w c m) then
      isAccessibleSpecGo w m ignoreChunk fuel (done ++ [cg]) todo
    else if (w.group cg).initFlag then
      false
    else
      let todo2 := (w.group cg).parents.foldl
        (fun t p => if (done ++ cg :: t).contains p then t else t ++ [p]) todo
      isAccessibleSpecGo w m ignoreChunk fuel (done ++ [cg]) todo2

/-- Modelled from the spec: entry point of the specified accessibility
breadth-first search (compare `isAccessibleInChunkGroup`). -/
def isAccessibleInChunkGroupSpec (w : World) (m fuel chunkGroup : Nat)
    (ignoreChunk : Option Nat) : Bool :=
  isAccessibleSpecGo w m ignoreChunk fuel [] [chunkGroup]

/-- Options record for the cost model: `chunkOverhead` and
`entryChunkMultiplicator` are optional JS numbers, modelled as rationals so
that fractional values (a multiplier of one half, say) stay representable. -/
structure SizeOptions where
  chunkOverhead : Option ℚ
  entryChunkMultiplicator : Option ℚ

/-- The `multiplicator` computed by `Chunk.addMultiplierAndOverhead`:
`options.entryChunkMultiplicator || 10` for an initial chunk (an explicit `0`
is falsy under JS `||` and falls back to 10) and `1` otherwise. -/
def effectiveMultiplier (w : World) (c : Nat) (options : SizeOptions) : ℚ :=
  if isInitial w c then
    match options.entryChunkMultiplicator with
    | some m => if m = 0 then 10 else m
    | none => 10
  else 1

/-- `Chunk.addMultiplierAndOverhead(size, options)`: the overhead defaults to
10000 when `options.chunkOverhead` is not a number. -/
def addMultiplierAndOverhead (w : World) (c : Nat) (size : ℚ)
    (options : SizeOptions) : ℚ :=
  size * effectiveMultiplier w c options + options.chunkOverhead.getD 10000

/-- `Chunk.modulesSize()`: sum of the member modules' `size()`. -/
def modulesSize (w : World) (c : Nat) : ℚ :=
  ((w.chunk c).modules.map w.modSize).sum

/-- `Chunk.size(options)`. -/
def size (w : World) (c : Nat) (options : SizeOptions) : ℚ :=
  addMultiplierAndOverhead w c (modulesSize w c) options

/-- `Chunk.integratedSize(otherChunk, options)`: `false` (here `none`) when
`canBeIntegrated` refuses; otherwise this chunk's raw size plus the sizes of
the other chunk's modules not already present, with multiplier and overhead. -/
def integratedSize (w : World) (fuel : Nat) (a b : Nat)
    (options : SizeOptions) : Option ℚ :=
  if canBeIntegrated w fuel a b then
    some (addMultiplierAndOverhead w a
      ((w.chunk b).modules.foldl
        (fun s m => if (w.chunk a).modules.contains m then s else s + w.modSize m)
        (modulesSize w a))
      options)
  else none

/-- JS truthiness of a chunk's `name` slot: defined and nonempty. -/
def nameTruthy : Option String → Bool
  | none => false
  | some s => s != ""

/-- Module-moving phase of `Chunk.integrate`: iterate a clone of
`otherChunk._modules` and call `otherChunk.moveModule(module, this)`. -/
def moveAllModules (w : World) (b a : Nat) (ms : List Nat) : World :=
  ms.foldl (fun acc m => moveModule acc b m a) w

/-- Group-rewiring phase of `Chunk.integrate`: for every group owning
`otherChunk`, `chunkGroup.replaceChunk(otherChunk, this)` then
`this.addGroup(chunkGroup)`. -/
def attachGroups (w : World) (b a : Nat) (gs : List Nat) : World :=
  gs.foldl (fun acc g => addGroup (ChunkGroup.replaceChunk acc g b a) a g) w

/-- Name reconciliation result of `Chunk.integrate` when both chunks are
named: on different lengths the shorter name, on equal lengths the JS
string-`<` smaller one. -/
def mergedName (na nb : String) : String :=
  if na.length != nb.length then
    if na.length < nb.length then na else nb
  else
    if na < nb then na else nb

/-- Module-moving stage of `Chunk.integrate`: move every module of the other
chunk (iterating a clone) into this one, then `otherChunk._modules.clear()`. -/
def integrateModulesPhase (w : World) (a b : Nat) : World :=
  updChunk (moveAllModules w b a (w.chunk b).modules) b
    (fun cd => { cd with modules := [] })

/-- Group-rewiring stage of `Chunk.integrate`: repoint every group owning the
other chunk, register it on this one, then `otherChunk._groups.clear()`. -/
def integrateGroupsPhase (w : World) (a b : Nat) : World :=
  updChunk (attachGroups w b a (w.chunk b).groups) b
    (fun cd => { cd with groups := [] })

/-- Final stage of `Chunk.integrate`: when both chunks carry (truthy) names,
this chunk takes the merged name. -/
def integrateNamePhase (w : World) (a b : Nat) : World :=
  if nameTruthy (w.chunk a).name && nameTruthy (w.chunk b).name then
    updChunk w a (fun cd =>
      { cd with name := some (mergedName ((w.chunk a).name.getD "")
          ((w.chunk b).name.getD "")) })
  else w

/-- `Chunk.integrate(otherChunk)`: gate on `canBeIntegrated`, then run the
module, group and name stages in source order. -/
def integrate (w : World) (fuel : Nat) (a b : Nat) : World × Bool :=
  if canBeIntegrated w fuel a b then
    (integrateNamePhase (integrateGroupsPhase (integrateModulesPhase w a b) a b) a b,
      true)
  else (w, false)

/-- The JS value stored in `module.usedExports`: `null`, a boolean, or an
array of export names. -/
inductive UsedExportsVal where
  | null : UsedExportsVal
  | flag : Bool → UsedExportsVal
  | names : List String → UsedExportsVal
deriving BEq, DecidableEq

/-- The slice of `module.buildMeta` read by `isUsed`/`isProvided`:
`providedExports` is `none` when the stored value is not an array. -/
structure BuildMeta where
  exportsType : Option String
  providedExports : Option (List String)

/-- The usage-relevant state of a module node: the tri-state `used`, the
`usedExports` value and the build metadata. -/
structure ModuleUsage where
  used : Option Bool
  usedExports : UsedExportsVal
  buildMeta : BuildMeta

/-- A value returned by `Module.isUsed`: a boolean or an export-name string. -/
inductive ExportUse where
  | bool : Bool → ExportUse
  | name : String → ExportUse
deriving BEq, DecidableEq

/-- Modelled from the spec: `Template.numberToIdentifer` (the `Template`
source file is not included under `src/`) turns an export position into a
"short positional identifier"; position `n` maps to the n-th lowercase letter
for `n < 26`, so distinct small positions receive distinct identifiers. -/
def numberToIdentifer (n : Nat) : String :=
  if n < 26 then (Char.ofNat (97 + n)).toString else "_" ++ toString n

/-- `Module.isProvided(exportName)`: `null` unless
`buildMeta.providedExports` is an array, otherwise array membership. -/
def isProvided (m : ModuleUsage) (exportName : String) : Option Bool :=
  match m.buildMeta.providedExports with
  | none => none
  | some l => some (l.contains exportName)

/-- `Module.isUsed(exportName)` from `src/lib/Module.js`: an empty (falsy)
name asks whether the module itself is used; `null` slots answer the name
itself; an unused module or empty usage answers `false`; an explicit
`usedExports` array is searched with `indexOf`, and a found, provided export
is mangled to a positional identifier when the exports type is `namespace`,
or `named` without a used `default`. -/
def isUsed (m : ModuleUsage) (exportName : String) : ExportUse :=
  if exportName == "" then .bool (m.used != some false)
  else if m.used == none || m.usedExports == UsedExportsVal.null then
    .name exportName
  else if m.used == some false then .bool false
  else if m.usedExports == UsedExportsVal.flag false then .bool false
  else if m.usedExports == UsedExportsVal.flag true then .name exportName
  else
    match m.usedExports with
    | UsedExportsVal.names l =>
      match l.findIdx? (fun x => x == exportName) with
      | none => .bool false
      | some idx =>
        if isProvided m exportName == some true then
          if m.buildMeta.exportsType == some "namespace" then
            .name (numberToIdentifer idx)
          else if m.buildMeta.exportsType == some "named"
              && !(l.contains "default") then
            .name (numberToIdentifer idx)
          else .name exportName
        else .name exportName
    | _ => .bool false

/-- Extract the message of an erroring accessor. -/
def errMsg : Except String Unit → Option String
  | .error s => some s
  | .ok _ => none

/-- A removed-accessor message names a replacement operation when it contains
the directive "Use " followed by the replacement. -/
def mentionsUse (s : String) : Prop :=
  "Use ".toList <:+: s.toList

instance (s : String) : Decidable (mentionsUse s) :=
  inferInstanceAs (Decidable (_ <:+: _))

/-- A removed-accessor message that explicitly denies a replacement. -/
def deniesReplacement (s : String) : Prop :=
  "there is no replacement".toList <:+: s.toList

instance (s : String) : Decidable (deniesReplacement s) :=
  inferInstanceAs (Decidable (_ <:+: _))

/-- Reading `Module.arguments` (removed accessor, always throws). -/
def moduleArgumentsGet : Except String Unit :=
  .error "Module.arguments was removed, there is no replacement."

/-- Writing `Module.arguments` (removed accessor, always throws). -/
def moduleArgumentsSet : Except String Unit :=
  .error "Module.arguments was removed, there is no replacement."

/-- Reading `Module.entry` (removed accessor, always throws). -/
def moduleEntryGet : Except String Unit :=
  .error "Module.entry was removed. Use Chunk.entryModule"

/-- Writing `Module.entry` (removed accessor, always throws). -/
def moduleEntrySet : Except String Unit :=
  .error "Module.entry was removed. Use Chunk.entryModule"

/-- Reading `Chunk.entry` (removed accessor, always throws). -/
def chunkEntryGet : Except String Unit :=
  .error "Chunk.entry was removed. Use hasRuntime()"

/-- Writing `Chunk.entry` (removed accessor, always throws). -/
def chunkEntrySet : Except String Unit :=
  .error "Chunk.entry was removed. Use hasRuntime()"

/-- Reading `Chunk.initial` (removed accessor, always throws). -/
def chunkInitialGet : Except String Unit :=
  .error "Chunk.initial was removed. Use isInitial()"

/-- Writing `Chunk.initial` (removed accessor, always throws). -/
def chunkInitialSet : Except String Unit :=
  .error "Chunk.initial was removed. Use isInitial()"

/-- Reading `Chunk.chunks` (removed accessor, always throws). -/
def chunkChunksGet : Except String Unit :=
  .error "Chunk.chunks: Use ChunkGroup.getChildren() instead"

/-- Writing `Chunk.chunks` (removed accessor, always throws). -/
def chunkChunksSet : Except String Unit :=
  .error "Chunk.chunks: Use ChunkGroup.add/removeChild() instead"

/-- Reading `Chunk.parents` (removed accessor, always throws). -/
def chunkParentsGet : Except String Unit :=
  .error "Chunk.parents: Use ChunkGroup.getParents() instead"

/-- Writing `Chunk.parents` (removed accessor, always throws). -/
def chunkParentsSet : Except String Unit :=
  .error "Chunk.parents: Use ChunkGroup.add/removeParent() instead"

/-- Reading `Chunk.blocks` (removed accessor, always throws). -/
def chunkBlocksGet : Except String Unit :=
  .error "Chunk.blocks: Use ChunkGroup.getBlocks() instead"

/-- Writing `Chunk.blocks` (removed accessor, always throws). -/
def chunkBlocksSet : Except String Unit :=
  .error "Chunk.blocks: Use ChunkGroup.add/removeBlock() instead"

/-- Reading `Chunk.entrypoints` (removed accessor, always throws). -/
def chunkEntrypointsGet : Except String Unit :=
  .error "Chunk.entrypoints: Use Chunks.groupsIterable and filter by instanceof Entrypoint instead"

/-- Writing `Chunk.entrypoints` (removed accessor, always throws). -/
def chunkEntrypointsSet : Except String Unit :=
  .error "Chunk.entrypoints: Use Chunks.addGroup instead"

/-- A chunk record with every slot empty. -/
def emptyChunk : ChunkData :=
  { name := none, entryModule := none, modules := [], groups := [] }

/-- A group record with every slot empty and the initial flag off. -/
def emptyGroup : GroupData :=
  { chunks := [], parents := [], initFlag := false }

/-- World for the accessibility divergence: module 0 is in no chunk; group 1
is non-initial with chunk 10 and parent group 2; group 2 is initial with
chunk 11 and no parents. -/
def wC1 : World :=
  { chunk := fun _ => emptyChunk
  , group := fun i =>
      if i = 1 then { chunks := [10], parents := [2], initFlag := false }
      else if i = 2 then { chunks := [11], parents := [], initFlag := true }
      else emptyGroup
  , modChunks := fun _ => []
  , modSize := fun _ => 0 }

/-- World for the integration-feasibility counterexample: chunk 0 belongs to
the initial group 10 (first) and the non-initial group 11; chunk 1 belongs
only to group 11 and carries entry module 5. -/
def wC2 : World :=
  { chunk := fun i =>
      if i = 0 then { name := none, entryModule := none, modules := [], groups := [10, 11] }
      else if i = 1 then { name := none, entryModule := some 5, modules := [], groups := [11] }
      else emptyChunk
  , group := fun i =>
      if i = 10 then { chunks := [0], parents := [], initFlag := true }
      else if i = 11 then { chunks := [0, 1], parents := [], initFlag := false }
      else emptyGroup
  , modChunks := fun _ => []
  , modSize := fun _ => 0 }

/-- World for the `isInitial` counterexample: chunk 0's owning groups iterate
as non-initial group 11 first, initial group 10 second. -/
def wC3 : World :=
  { chunk := fun i =>
      if i = 0 then { name := none, entryModule := none, modules := [], groups := [11, 10] }
      else emptyChunk
  , group := fun i =>
      if i = 10 then { chunks := [0], parents := [], initFlag := true }
      else if i = 11 then { chunks := [0], parents := [], initFlag := false }
      else emptyGroup
  , modChunks := fun _ => []
  , modSize := fun _ => 0 }

/-- World witnessing the amended `isInitial` statement: chunk 0 owns exactly
one, initial, group. -/
def wC3w : World :=
  { chunk := fun i =>
      if i = 0 then { name := none, entryModule := none, modules := [], groups := [10] }
      else emptyChunk
  , group := fun i =>
      if i = 10 then { chunks := [0], parents := [], initFlag := true }
      else emptyGroup
  , modChunks := fun _ => []
  , modSize := fun _ => 0 }

/-- World witnessing the amended entry-module refusal: two group-less (hence
non-initial) chunks, chunk 0 carrying entry module 3. -/
def wC2w : World :=
  { chunk := fun i =>
      if i = 0 then { name := none, entryModule := some 3, modules := [], groups := [] }
      else emptyChunk
  , group := fun _ => emptyGroup
  , modChunks := fun _ => []
  , modSize := fun _ => 0 }

/-- The module of the export-mangling scenario: `used = true`,
`usedExports = ["b"]`, `buildMeta.exportsType = "namespace"`,
`buildMeta.providedExports = ["a", "b"]`. -/
def mC4 : ModuleUsage :=
  { used := some true
  , usedExports := UsedExportsVal.names ["b"]
  , buildMeta := { exportsType := some "namespace", providedExports := some ["a", "b"] } }

/-- C1: the source of `isAccessibleInChunkGroup` re-reads the starting group's
initial flag and parent set at every queue item instead of the item's own, so
on a non-initial starting group whose parent is an initial group containing
the module nowhere, the code answers `true` while the breadth-first traversal
that the specification (and the source's own step comments) describe answers
`false`. -/
theorem c1_accessibility_divergence :
    isAccessibleInChunkGroup wC1 0 20 1 none = true ∧
      isAccessibleInChunkGroupSpec wC1 0 20 1 none = false := by
  decide

/-- C2 counterexample: chunk 0 is initial, chunk 1 is non-initial and carries
a designated entry module, yet `canBeIntegrated` answers `true` because the
differing-initiality branch returns before the entry-module check. -/
theorem c2_counterexample :
    canBeIntegrated wC2 10 0 1 = true ∧ hasEntryModule wC2 1 = true := by
  decide

/-- C2 amended: when the two chunks agree on initiality, a designated entry
module on either side makes `canBeIntegrated` refuse. -/
theorem c2_entry_module_refusal (w : World) (fuel : Nat) (a b : Nat)
    (hinit : isInitial w a = isInitial w b)
    (hentry : hasEntryModule w a = true ∨ hasEntryModule w b = true) :
    canBeIntegrated w fuel a b = false := by
  unfold canBeIntegrated
  rw [hinit]
  rcases hentry with h | h <;> simp [h]

/-- C2 witness: two group-less chunks agree on initiality, chunk 0 has an
entry module, and integration is indeed refused. -/
theorem c2_witness :
    isInitial wC2w 0 = isInitial wC2w 1 ∧
      (hasEntryModule wC2w 0 = true ∨ hasEntryModule wC2w 1 = true) ∧
      canBeIntegrated wC2w 7 0 1 = false :=
  ⟨by decide, by decide,
    c2_entry_module_refusal wC2w 7 0 1 (by decide) (by decide)⟩

/-- C3 counterexample: chunk 0's second owning group is initial but its first
is not, and `isInitial` answers `false`. -/
theorem c3_counterexample :
    isInitial wC3 0 = false ∧ 10 ∈ (wC3.chunk 0).groups ∧
      (wC3.group 10).initFlag = true := by
  decide

/-- C3 amended: `isInitial` consults only the first owning group, so when all
owning groups agree on their initial flag it answers true exactly when some
owning group is initial. -/
theorem c3_isInitial_first_group (w : World) (c : Nat)
    (hagree : ∀ g1 ∈ (w.chunk c).groups, ∀ g2 ∈ (w.chunk c).groups,
      (w.group g1).initFlag = (w.group g2).initFlag) :
    isInitial w c = true ↔ ∃ g ∈ (w.chunk c).groups, (w.group g).initFlag = true := by
  unfold isInitial
  cases hgs : (w.chunk c).groups with
  | nil => simp [hgs]
  | cons g rest =>
    rw [hgs] at hagree
    show (w.group g).initFlag = true ↔ _
    constructor
    · intro h
      exact ⟨g, List.mem_cons_self g rest, h⟩
    · rintro ⟨g2, hg2, hflag⟩
      rw [hagree g (List.mem_cons_self g rest) g2 hg2]
      exact hflag

/-- C3 witness: with a single (initial) owning group the agreement hypothesis
holds and the equivalence is realized. -/
theorem c3_witness :
    (∀ g1 ∈ (wC3w.chunk 0).groups, ∀ g2 ∈ (wC3w.chunk 0).groups,
      (wC3w.group g1).initFlag = (wC3w.group g2).initFlag) ∧
      (isInitial wC3w 0 = true ↔
        ∃ g ∈ (wC3w.chunk 0).groups, (wC3w.group g).initFlag = true) :=
  ⟨by decide, c3_isInitial_first_group wC3w 0 (by decide)⟩

/-- C4 counterexample: on the scenario module, `isUsed "b"` mangles to the
identifier of index 0 — the position of "b" in `usedExports`, not the claimed
index 1 from `providedExports`. -/
theorem c4_counterexample :
    isUsed mC4 "b" = ExportUse.name (numberToIdentifer 0) ∧
      numberToIdentifer 0 ≠ numberToIdentifer 1 ∧
      isUsed mC4 "b" ≠ ExportUse.name (numberToIdentifer 1) := by
  decide

/-- C4 amended: `isUsed "b"` returns the short positional identifier of
index 0, the position of "b" in `usedExports` (concretely the string "a",
so in particular not "b" itself), and `isUsed "a"` returns `false`. -/
theorem c4_positional_identifier :
    isUsed mC4 "b" = ExportUse.name "a" ∧ numberToIdentifer 0 = "a" ∧
      isUsed mC4 "b" ≠ ExportUse.name "b" ∧
      isUsed mC4 "a" = ExportUse.bool false := by
  decide

/-- C8: `getNumberOfGroups` reads the misspelled `siz` property of the groups
set, so in every state it yields `undefined` rather than the group count. -/
theorem c8_getNumberOfGroups_undefined (w : World) (c : Nat) :
    getNumberOfGroups w c = none ∧
      getNumberOfGroups w c ≠ some ((w.chunk c).groups.length) := by
  refine ⟨?_, ?_⟩ <;> simp [getNumberOfGroups, sortableSetGetProp]

/-- C9 counterexample: the removed accessor `Module.arguments` does fail on
read and write, but its message explicitly states there is no replacement and
names none, contradicting the claim that every listed accessor's message
names a still-supported replacement operation. -/
theorem c9_arguments_without_replacement :
    errMsg moduleArgumentsGet =
        some "Module.arguments was removed, there is no replacement." ∧
      errMsg moduleArgumentsSet =
        some "Module.arguments was removed, there is no replacement." ∧
      ¬ mentionsUse "Module.arguments was removed, there is no replacement." ∧
      deniesReplacement "Module.arguments was removed, there is no replacement." := by
  decide

/-- C9 amended: every removed accessor fails unconditionally on read and on
write; for each of them except `Module.arguments` the message names the
replacement (a "Use ..." directive), while `Module.arguments`'s message
states that there is no replacement. -/
theorem c9_removed_accessors :
    (∃ s, errMsg moduleArgumentsGet = some s ∧ errMsg moduleArgumentsSet = some s ∧
      deniesReplacement s) ∧
    (∃ s, errMsg moduleEntryGet = some s ∧ errMsg moduleEntrySet = some s ∧
      mentionsUse s) ∧
    (∃ s, errMsg chunkEntryGet = some s ∧ errMsg chunkEntrySet = some s ∧
      mentionsUse s) ∧
    (∃ s, errMsg chunkInitialGet = some s ∧ errMsg chunkInitialSet = some s ∧
      mentionsUse s) ∧
    (∃ s t, errMsg chunkChunksGet = some s ∧ errMsg chunkChunksSet = some t ∧
      mentionsUse s ∧ mentionsUse t) ∧
    (∃ s t, errMsg chunkParentsGet = some s ∧ errMsg chunkParentsSet = some t ∧
      mentionsUse s ∧ mentionsUse t) ∧
    (∃ s t, errMsg chunkBlocksGet = some s ∧ errMsg chunkBlocksSet = some t ∧
      mentionsUse s ∧ mentionsUse t) ∧
    (∃ s t, errMsg chunkEntrypointsGet = some s ∧ errMsg chunkEntrypointsSet = some t ∧
      mentionsUse s ∧ mentionsUse t) := by
  refine ⟨⟨_, rfl, rfl, by decide⟩, ⟨_, rfl, rfl, by decide⟩,
    ⟨_, rfl, rfl, by decide⟩, ⟨_, rfl, rfl, by decide⟩,
    ⟨_, _, rfl, rfl, by decide, by decide⟩, ⟨_, _, rfl, rfl, by decide, by decide⟩,
    ⟨_, _, rfl, rfl, by decide, by decide⟩, ⟨_, _, rfl, rfl, by decide, by decide⟩⟩

/-- The options record with neither field set (all defaults). -/
def optsDefault : SizeOptions :=
  { chunkOverhead := none, entryChunkMultiplicator := none }

/-- World for the size-monotonicity counterexample: chunk 0 is empty, chunk 1
contributes module 3 but carries entry module 9, so integration is refused. -/
def wC7 : World :=
  { chunk := fun i =>
      if i = 0 then { name := none, entryModule := none, modules := [], groups := [] }
      else if i = 1 then { name := none, entryModule := some 9, modules := [3], groups := [] }
      else emptyChunk
  , group := fun _ => emptyGroup
  , modChunks := fun i => if i = 3 then [1] else []
  , modSize := fun _ => 1 }

/-- World witnessing amended size monotonicity: two integrable group-less
chunks, chunk 1 contributing module 2 of size 5. -/
def wC7w : World :=
  { chunk := fun i =>
      if i = 0 then { name := none, entryModule := none, modules := [1], groups := [] }
      else if i = 1 then { name := none, entryModule := none, modules := [2], groups := [] }
      else emptyChunk
  , group := fun _ => emptyGroup
  , modChunks := fun i => if i = 1 then [0] else if i = 2 then [1] else []
  , modSize := fun _ => 5 }

/-- C6: an infeasible `integrate` returns `false` leaving the whole world
untouched, and an infeasible `integratedSize` likewise reports plain `false`
(`none`), with no error raised. -/
theorem c6_infeasible_boolean (w : World) (fuel : Nat) (a b : Nat)
    (opts : SizeOptions) (h : canBeIntegrated w fuel a b = false) :
    integrate w fuel a b = (w, false) ∧ integratedSize w fuel a b opts = none := by
  constructor <;> simp [integrate, integratedSize, h]

/-- C6 witness: on two non-initial chunks with an entry module on one side,
integration is infeasible and both operations report bare `false`. -/
theorem c6_witness :
    canBeIntegrated wC2w 7 0 1 = false ∧
      integrate wC2w 7 0 1 = (wC2w, false) ∧
      integratedSize wC2w 7 0 1 optsDefault = none :=
  ⟨by decide, (c6_infeasible_boolean wC2w 7 0 1 optsDefault (by decide)).1,
    (c6_infeasible_boolean wC2w 7 0 1 optsDefault (by decide)).2⟩

theorem foldl_size_le (w : World) (a : Nat) (hsz : ∀ m, 0 ≤ w.modSize m) :
    ∀ (l : List Nat) (s : ℚ),
      s ≤ l.foldl
        (fun s m => if (w.chunk a).modules.contains m then s else s + w.modSize m) s
  | [], s => le_refl s
  | m :: l, s => by
    refine le_trans ?_ (foldl_size_le w a hsz l _)
    dsimp only
    split
    · exact le_refl s
    · have := hsz m
      linarith

theorem effectiveMultiplier_nonneg (w : World) (c : Nat) (opts : SizeOptions)
    (hm : ∀ m, opts.entryChunkMultiplicator = some m → 0 ≤ m) :
    0 ≤ effectiveMultiplier w c opts := by
  unfold effectiveMultiplier
  split
  · rcases hopt : opts.entryChunkMultiplicator with _ | m
    · norm_num
    · have := hm m hopt
      simp only []
      split
      · norm_num
      · exact this
  · norm_num

theorem addMultiplierAndOverhead_mono (w : World) (c : Nat) (opts : SizeOptions)
    (hm : ∀ m, opts.entryChunkMultiplicator = some m → 0 ≤ m)
    {s1 s2 : ℚ} (h : s1 ≤ s2) :
    addMultiplierAndOverhead w c s1 opts ≤ addMultiplierAndOverhead w c s2 opts := by
  unfold addMultiplierAndOverhead
  have := mul_le_mul_of_nonneg_right h (effectiveMultiplier_nonneg w c opts hm)
  linarith

/-- World for the fractional-multiplier instance: chunk 0 is initial through
group 10, so the entry-chunk multiplier applies to it. -/
def wC7frac : World :=
  { chunk := fun i =>
      if i = 0 then { name := none, entryModule := none, modules := [], groups := [10] }
      else emptyChunk
  , group := fun i =>
      if i = 10 then { chunks := [0], parents := [], initFlag := true }
      else emptyGroup
  , modChunks := fun _ => []
  , modSize := fun _ => 1 }

/-- C7 counterexample: both conjuncts of the claim fail.  First, every stated
hypothesis holds on `wC7` (all module sizes non-negative, chunk 1 contributes
module 3 absent from chunk 0), yet `integratedSize` is not a number at least
`size` — it is the boolean `false` (`none`), because `canBeIntegrated`
refuses the pair.  Second, on the initial chunk of `wC7frac` the positive
fractional multiplier one half with positive overhead 1 does not strictly
increase the non-negative size 4: the result is 3. -/
theorem c7_counterexample :
    ((∀ m : Nat, 0 ≤ wC7.modSize m) ∧
      3 ∈ (wC7.chunk 1).modules ∧ 3 ∉ (wC7.chunk 0).modules ∧
      integratedSize wC7 5 0 1 optsDefault = none ∧
      ¬ ∃ n : ℚ, integratedSize wC7 5 0 1 optsDefault = some n ∧
        size wC7 0 optsDefault ≤ n) ∧
    ((0 : ℚ) < 1 / 2 ∧ (0 : ℚ) < 1 ∧ (0 : ℚ) ≤ 4 ∧
      addMultiplierAndOverhead wC7frac 0 4
        { chunkOverhead := some 1, entryChunkMultiplicator := some (1 / 2) } = 3 ∧
      ¬ (4 : ℚ) < addMultiplierAndOverhead wC7frac 0 4
        { chunkOverhead := some 1, entryChunkMultiplicator := some (1 / 2) }) := by
  have hval : addMultiplierAndOverhead wC7frac 0 4
      { chunkOverhead := some 1, entryChunkMultiplicator := some (1 / 2) } = 3 := by
    have hinit : isInitial wC7frac 0 = true := by decide
    rw [addMultiplierAndOverhead, effectiveMultiplier, if_pos hinit]
    norm_num
  refine ⟨⟨fun m => by show (0 : ℚ) ≤ 1; decide, by decide, by decide, by decide, ?_⟩,
    by norm_num, by norm_num, by norm_num, hval, ?_⟩
  · rintro ⟨n, hn, -⟩
    have hnone : integratedSize wC7 5 0 1 optsDefault = none := by decide
    rw [hnone] at hn
    cases hn
  · rw [hval]
    norm_num

/-- C7 amended: when the pair is integrable, all module sizes are non-negative
and the entry-chunk multiplier option is not negative, `integratedSize` is a
number at least `size`; and `addMultiplierAndOverhead` with explicit positive
overhead and multiplier at least 1 (as the defaults are) strictly increases
every non-negative size. -/
theorem c7_size_monotone (w : World) (fuel : Nat) (a b : Nat) (opts : SizeOptions)
    (hfeas : canBeIntegrated w fuel a b = true)
    (hsz : ∀ m, 0 ≤ w.modSize m)
    (hmult : ∀ m, opts.entryChunkMultiplicator = some m → 0 ≤ m)
    (_hcontrib : ∃ m ∈ (w.chunk b).modules, m ∉ (w.chunk a).modules) :
    (∃ n, integratedSize w fuel a b opts = some n ∧ size w a opts ≤ n) ∧
      (∀ (c : Nat) (s o mult : ℚ), 0 ≤ s → 0 < o → 1 ≤ mult →
        s < addMultiplierAndOverhead w c s
          { chunkOverhead := some o, entryChunkMultiplicator := some mult }) := by
  constructor
  · refine ⟨_, by rw [integratedSize, if_pos hfeas], ?_⟩
    exact addMultiplierAndOverhead_mono w a opts hmult
      (foldl_size_le w a hsz _ _)
  · intro c s o mult hs ho hm1
    have h1 : (1 : ℚ) ≤ effectiveMultiplier w c
        { chunkOverhead := some o, entryChunkMultiplicator := some mult } := by
      unfold effectiveMultiplier
      split
      · simp only []
        split
        · norm_num
        · exact hm1
      · norm_num
    have h2 : s ≤ s * effectiveMultiplier w c
        { chunkOverhead := some o, entryChunkMultiplicator := some mult } :=
      le_mul_of_one_le_right hs h1
    unfold addMultiplierAndOverhead
    simp only [Option.getD_some]
    linarith

/-- C7 witness: a concrete integrable pair with a contributed module realizes
the amended monotonicity statement. -/
theorem c7_witness :
    canBeIntegrated wC7w 5 0 1 = true ∧
      (∃ m ∈ (wC7w.chunk 1).modules, m ∉ (wC7w.chunk 0).modules) ∧
      (∃ n, integratedSize wC7w 5 0 1 optsDefault = some n ∧
        size wC7w 0 optsDefault ≤ n) ∧
      (∀ (c : Nat) (s o mult : ℚ), 0 ≤ s → 0 < o → 1 ≤ mult →
        s < addMultiplierAndOverhead wC7w c s
          { chunkOverhead := some o, entryChunkMultiplicator := some mult }) := by
  refine ⟨by decide, ⟨2, by decide, by decide⟩, ?_⟩
  exact c7_size_monotone wC7w 5 0 1 optsDefault (by decide)
    (fun m => by show (0 : ℚ) ≤ 5; decide)
    (fun m h => by simp [optsDefault] at h) ⟨2, by decide, by decide⟩

theorem contains_iff (l : List Nat) (x : Nat) : l.contains x = true ↔ x ∈ l := by
  simp

theorem removeModuleCallback_chunk_groups (v : World) (c m x : Nat) :
    ((removeModuleCallback v c m).chunk x).groups = (v.chunk x).groups := by
  unfold removeModuleCallback
  split
  · by_cases hx : x = c
    · subst hx; simp
    · rw [updChunk_chunk_ne _ _ hx]
  · rfl

theorem removeModuleCallback_group (v : World) (c m : Nat) :
    (removeModuleCallback v c m).group = v.group := by
  unfold removeModuleCallback
  split <;> rfl

theorem removeModuleCallback_modChunks (v : World) (c m : Nat) :
    (removeModuleCallback v c m).modChunks = v.modChunks := by
  unfold removeModuleCallback
  split <;> rfl

theorem removeModuleCallback_modules_subset (v : World) (c m x m0 : Nat)
    (h : m0 ∈ ((removeModuleCallback v c m).chunk x).modules) :
    m0 ∈ (v.chunk x).modules := by
  revert h
  unfold removeModuleCallback
  split
  · by_cases hx : x = c
    · subst hx
      simp [mem_setDelete]
      exact fun h _ => h
    · rw [updChunk_chunk_ne _ _ hx]
      exact id
  · exact id

theorem removeModuleCallback_not_mem_self (v : World) (c m : Nat) :
    m ∉ ((removeModuleCallback v c m).chunk c).modules := by
  unfold removeModuleCallback
  split
  · simp [not_mem_setDelete]
  · rename_i h
    rw [contains_iff] at h
    exact h

theorem removeChunk_chunk_groups (v : World) (m c x : Nat) :
    (((Module.removeChunk v m c).1).chunk x).groups = (v.chunk x).groups := by
  unfold Module.removeChunk
  split
  · rw [removeModuleCallback_chunk_groups]
    rfl
  · rfl

theorem removeChunk_group (v : World) (m c : Nat) :
    ((Module.removeChunk v m c).1).group = v.group := by
  unfold Module.removeChunk
  split
  · rw [removeModuleCallback_group]
    rfl
  · rfl

theorem removeChunk_modules_subset (v : World) (m c x m0 : Nat)
    (h : m0 ∈ (((Module.removeChunk v m c).1).chunk x).modules) :
    m0 ∈ (v.chunk x).modules := by
  revert h
  unfold Module.removeChunk
  split
  · intro h
    exact removeModuleCallback_modules_subset
      (updModChunks v m (setDelete (v.modChunks m) c)) c m x m0 h
  · exact id

theorem removeChunk_not_mem (v : World) (m c : Nat) :
    (Module.removeChunk v m c).2 = true →
      m ∉ (((Module.removeChunk v m c).1).chunk c).modules := by
  unfold Module.removeChunk
  split
  · intro _
    exact removeModuleCallback_not_mem_self _ _ _
  · intro h
    cases h

theorem removeChunk_guard (v : World) (m c : Nat) (h : c ∈ v.modChunks m) :
    (Module.removeChunk v m c).2 = true := by
  unfold Module.removeChunk
  rw [if_pos ((contains_iff _ _).mpr h)]

theorem removeChunk_modChunks_ne (v : World) (m c m0 : Nat) (h : m0 ≠ m) :
    ((Module.removeChunk v m c).1).modChunks m0 = v.modChunks m0 := by
  unfold Module.removeChunk
  split
  · rw [removeModuleCallback_modChunks]
    exact updModChunks_ne _ _ h
  · rfl

theorem removeChunk_self_not_mem_modChunks (v : World) (m c : Nat) :
    c ∉ ((Module.removeChunk v m c).1).modChunks m := by
  unfold Module.removeChunk
  split
  · rw [removeModuleCallback_modChunks, updModChunks_self]
    exact not_mem_setDelete _ _
  · rename_i h
    rw [contains_iff] at h
    exact h

theorem removeChunk_modChunks_not_mem_preserved (v : World) (m c m0 : Nat)
    (h : c ∉ v.modChunks m0) : c ∉ ((Module.removeChunk v m c).1).modChunks m0 := by
  by_cases hm : m0 = m
  · subst hm
    exact removeChunk_self_not_mem_modChunks v m0 c
  · rw [removeChunk_modChunks_ne v m c m0 hm]
    exact h

theorem removeAllModuleEdges_chunk_groups (c x : Nat) :
    ∀ (ms : List Nat) (v : World),
      ((removeAllModuleEdges v c ms).chunk x).groups = (v.chunk x).groups
  | [], v => rfl
  | m :: ms, v => by
    show ((removeAllModuleEdges ((Module.removeChunk v m c).1) c ms).chunk x).groups =
      (v.chunk x).groups
    rw [removeAllModuleEdges_chunk_groups c x ms ((Module.removeChunk v m c).1)]
    exact removeChunk_chunk_groups v m c x

theorem removeAllModuleEdges_group (c : Nat) :
    ∀ (ms : List Nat) (v : World), (removeAllModuleEdges v c ms).group = v.group
  | [], v => rfl
  | m :: ms, v => by
    show (removeAllModuleEdges ((Module.removeChunk v m c).1) c ms).group = v.group
    rw [removeAllModuleEdges_group c ms _]
    exact removeChunk_group v m c

theorem removeAllModuleEdges_not_mem_preserved (c m0 : Nat) :
    ∀ (ms : List Nat) (v : World), c ∉ v.modChunks m0 →
      c ∉ (removeAllModuleEdges v c ms).modChunks m0
  | [], v, h => h
  | m :: ms, v, h => by
    show c ∉ (removeAllModuleEdges ((Module.removeChunk v m c).1) c ms).modChunks m0
    exact removeAllModuleEdges_not_mem_preserved c m0 ms _
      (removeChunk_modChunks_not_mem_preserved v m c m0 h)

theorem removeAllModuleEdges_not_mem_modChunks (c m0 : Nat) :
    ∀ (ms : List Nat) (v : World), m0 ∈ ms →
      c ∉ (removeAllModuleEdges v c ms).modChunks m0
  | [], _, h => absurd h (List.not_mem_nil m0)
  | m :: ms, v, h => by
    show c ∉ (removeAllModuleEdges ((Module.removeChunk v m c).1) c ms).modChunks m0
    by_cases hm : m0 ∈ ms
    · exact removeAllModuleEdges_not_mem_modChunks c m0 ms _ hm
    · have hm0 : m0 = m := by
        rcases List.mem_cons.mp h with h1 | h1
        · exact h1
        · exact absurd h1 hm
      subst hm0
      exact removeAllModuleEdges_not_mem_preserved c m0 ms _
        (removeChunk_self_not_mem_modChunks v m0 c)

theorem removeAllModuleEdges_main (c m0 : Nat) :
    ∀ (ms : List Nat) (v : World),
      m0 ∈ ((removeAllModuleEdges v c ms).chunk c).modules →
        m0 ∈ (v.chunk c).modules ∧ (c ∈ v.modChunks m0 → m0 ∉ ms)
  | [], v, h => ⟨h, fun _ => List.not_mem_nil m0⟩
  | m :: ms, v, h => by
    rw [show removeAllModuleEdges v c (m :: ms) =
      removeAllModuleEdges ((Module.removeChunk v m c).1) c ms from rfl] at h
    obtain ⟨h1, h2⟩ := removeAllModuleEdges_main c m0 ms _ h
    refine ⟨removeChunk_modules_subset v m c c m0 h1, fun hc => ?_⟩
    by_cases hm : m0 = m
    · subst hm
      exact absurd h1 (removeChunk_not_mem v m0 c (removeChunk_guard v m0 c hc))
    · intro hmem
      rcases List.mem_cons.mp hmem with h3 | h3
      · exact hm h3
      · have : c ∈ ((Module.removeChunk v m c).1).modChunks m0 := by
          rw [removeChunk_modChunks_ne v m c m0 hm]
          exact hc
        exact h2 this h3

theorem removeFromAllGroups_chunk (c : Nat) :
    ∀ (gs : List Nat) (v : World), (removeFromAllGroups v c gs).chunk = v.chunk
  | [], _ => rfl
  | g :: gs, v => by
    show (removeFromAllGroups (ChunkGroup.removeChunk v g c) c gs).chunk = v.chunk
    rw [removeFromAllGroups_chunk c gs _]
    rfl

theorem removeFromAllGroups_modChunks (c : Nat) :
    ∀ (gs : List Nat) (v : World), (removeFromAllGroups v c gs).modChunks = v.modChunks
  | [], _ => rfl
  | g :: gs, v => by
    show (removeFromAllGroups (ChunkGroup.removeChunk v g c) c gs).modChunks = v.modChunks
    rw [removeFromAllGroups_modChunks c gs _]
    rfl

/-- World witnessing the `remove` claim: chunk 0 holds module 1 (symmetric
edge) and belongs to group 7. -/
def wC10 : World :=
  { chunk := fun i =>
      if i = 0 then { name := none, entryModule := none, modules := [1], groups := [7] }
      else emptyChunk
  , group := fun i =>
      if i = 7 then { chunks := [0], parents := [], initFlag := false }
      else emptyGroup
  , modChunks := fun i => if i = 1 then [0] else []
  , modSize := fun _ => 1 }

/-- C10: `Chunk.remove` empties the chunk's member set and erases the chunk
from every former member module's chunk set (given the documented symmetric
membership), yet leaves the chunk's own owning-group set untouched, so
`isInGroup` still answers `true` for every former owner. -/
theorem c10_remove_keeps_groups (w : World) (c : Nat)
    (_hne : (w.chunk c).groups ≠ [])
    (hsym : ∀ m ∈ (w.chunk c).modules, c ∈ w.modChunks m) :
    isEmpty (Chunk.remove w c) c = true ∧
      (∀ m ∈ (w.chunk c).modules, c ∉ (Chunk.remove w c).modChunks m) ∧
      ((Chunk.remove w c).chunk c).groups = (w.chunk c).groups ∧
      (∀ g ∈ (w.chunk c).groups, isInGroup (Chunk.remove w c) c g = true) := by
  have hchunk : (Chunk.remove w c).chunk =
      (removeAllModuleEdges w c (w.chunk c).modules).chunk :=
    removeFromAllGroups_chunk c _ _
  have hmc : (Chunk.remove w c).modChunks =
      (removeAllModuleEdges w c (w.chunk c).modules).modChunks :=
    removeFromAllGroups_modChunks c _ _
  have hmods : ((Chunk.remove w c).chunk c).modules = [] := by
    rw [hchunk]
    rw [List.eq_nil_iff_forall_not_mem]
    intro m0 hm0
    obtain ⟨h1, h2⟩ := removeAllModuleEdges_main c m0 (w.chunk c).modules w hm0
    exact h2 (hsym m0 h1) h1
  have hgroups : ((Chunk.remove w c).chunk c).groups = (w.chunk c).groups := by
    rw [hchunk]
    exact removeAllModuleEdges_chunk_groups c c _ _
  refine ⟨?_, ?_, hgroups, ?_⟩
  · rw [isEmpty, hmods]
    rfl
  · intro m hm
    rw [hmc]
    exact removeAllModuleEdges_not_mem_modChunks c m _ w hm
  · intro g hg
    rw [isInGroup, hgroups]
    exact (contains_iff _ _).mpr hg

/-- C10 witness: a concrete chunk with one module and one owning group
realizes the statement. -/
theorem c10_witness :
    (wC10.chunk 0).groups ≠ [] ∧
      (∀ m ∈ (wC10.chunk 0).modules, 0 ∈ wC10.modChunks m) ∧
      (isEmpty (Chunk.remove wC10 0) 0 = true ∧
        (∀ m ∈ (wC10.chunk 0).modules, 0 ∉ (Chunk.remove wC10 0).modChunks m) ∧
        ((Chunk.remove wC10 0).chunk 0).groups = (wC10.chunk 0).groups ∧
        (∀ g ∈ (wC10.chunk 0).groups, isInGroup (Chunk.remove wC10 0) 0 g = true)) :=
  ⟨by decide, by decide, c10_remove_keeps_groups wC10 0 (by decide) (by decide)⟩

theorem mem_map_replace_self {l : List Nat} {a b : Nat} (h : a ∈ l) :
    a ∈ l.map (fun x => if x = b then a else x) :=
  List.mem_map.mpr ⟨a, h, by split <;> rfl⟩

theorem mem_map_replace_of_mem {l : List Nat} {a b : Nat} (h : b ∈ l) :
    a ∈ l.map (fun x => if x = b then a else x) :=
  List.mem_map.mpr ⟨b, h, by simp⟩

theorem not_mem_map_replace {l : List Nat} {a b : Nat} (hab : a ≠ b) :
    b ∉ l.map (fun x => if x = b then a else x) := by
  intro hmem
  obtain ⟨x, _, hxe⟩ := List.mem_map.mp hmem
  by_cases hxb : x = b
  · rw [if_pos hxb] at hxe
    exact hab hxe
  · rw [if_neg hxb] at hxe
    exact hxb hxe

theorem moveModule_group (v : World) (c m oc : Nat) :
    (moveModule v c m oc).group = v.group := rfl

theorem moveModule_chunk_groups (v : World) (c m oc x : Nat) :
    ((moveModule v c m oc).chunk x).groups = (v.chunk x).groups := by
  unfold moveModule connectChunkAndModule disconnectChunkAndModule updChunk updModChunks
  dsimp only
  split_ifs <;> rfl

theorem moveModule_chunk_name (v : World) (c m oc x : Nat) :
    ((moveModule v c m oc).chunk x).name = (v.chunk x).name := by
  unfold moveModule connectChunkAndModule disconnectChunkAndModule updChunk updModChunks
  dsimp only
  split_ifs <;> rfl

theorem moveModule_dest_modules (v : World) (c m oc : Nat) (h : oc ≠ c) :
    ((moveModule v c m oc).chunk oc).modules = setAdd (v.chunk oc).modules m := by
  unfold moveModule connectChunkAndModule disconnectChunkAndModule
  rw [updChunk_chunk_self]
  dsimp only
  rw [updModChunks_chunk, updChunk_chunk_ne _ _ h, updModChunks_chunk]

theorem moveAllModules_group (b a : Nat) :
    ∀ (ms : List Nat) (v : World), (moveAllModules v b a ms).group = v.group
  | [], _ => rfl
  | m :: ms, v => by
    show (moveAllModules (moveModule v b m a) b a ms).group = v.group
    rw [moveAllModules_group b a ms _]
    rfl

theorem moveAllModules_chunk_groups (b a x : Nat) :
    ∀ (ms : List Nat) (v : World),
      ((moveAllModules v b a ms).chunk x).groups = (v.chunk x).groups
  | [], _ => rfl
  | m :: ms, v => by
    show ((moveAllModules (moveModule v b m a) b a ms).chunk x).groups = (v.chunk x).groups
    rw [moveAllModules_chunk_groups b a x ms _]
    exact moveModule_chunk_groups v b m a x

theorem moveAllModules_chunk_name (b a x : Nat) :
    ∀ (ms : List Nat) (v : World),
      ((moveAllModules v b a ms).chunk x).name = (v.chunk x).name
  | [], _ => rfl
  | m :: ms, v => by
    show ((moveAllModules (moveModule v b m a) b a ms).chunk x).name = (v.chunk x).name
    rw [moveAllModules_chunk_name b a x ms _]
    exact moveModule_chunk_name v b m a x

theorem moveAllModules_mem_dest (b a : Nat) (hab : a ≠ b) :
    ∀ (ms : List Nat) (v : World) (m0 : Nat),
      (m0 ∈ (v.chunk a).modules ∨ m0 ∈ ms) →
        m0 ∈ ((moveAllModules v b a ms).chunk a).modules
  | [], v, m0, h => by
    rcases h with h | h
    · exact h
    · exact absurd h (List.not_mem_nil m0)
  | m :: ms, v, m0, h => by
    show m0 ∈ ((moveAllModules (moveModule v b m a) b a ms).chunk a).modules
    apply moveAllModules_mem_dest b a hab ms _ m0
    have hd : ((moveModule v b m a).chunk a).modules = setAdd (v.chunk a).modules m :=
      moveModule_dest_modules v b m a hab
    rcases h with h | h
    · left
      rw [hd]
      exact mem_setAdd_of_mem h
    · rcases List.mem_cons.mp h with h1 | h1
      · subst h1
        left
        rw [hd]
        exact mem_setAdd_self _ _
      · right
        exact h1

theorem modulesPhase_chunk_b_modules (w : World) (a b : Nat) :
    ((integrateModulesPhase w a b).chunk b).modules = [] := by
  unfold integrateModulesPhase
  rw [updChunk_chunk_self]

theorem modulesPhase_mem_a (w : World) (a b : Nat) (hab : a ≠ b) :
    ∀ m0 ∈ (w.chunk b).modules, m0 ∈ ((integrateModulesPhase w a b).chunk a).modules := by
  intro m0 h
  unfold integrateModulesPhase
  rw [updChunk_chunk_ne _ _ hab]
  exact moveAllModules_mem_dest b a hab _ w m0 (Or.inr h)

theorem modulesPhase_chunk_groups (w : World) (a b x : Nat) :
    ((integrateModulesPhase w a b).chunk x).groups = (w.chunk x).groups := by
  unfold integrateModulesPhase
  by_cases hx : x = b
  · subst hx
    rw [updChunk_chunk_self]
    exact moveAllModules_chunk_groups x a x _ w
  · rw [updChunk_chunk_ne _ _ hx]
    exact moveAllModules_chunk_groups b a x _ w

theorem modulesPhase_chunk_name (w : World) (a b x : Nat) :
    ((integrateModulesPhase w a b).chunk x).name = (w.chunk x).name := by
  unfold integrateModulesPhase
  by_cases hx : x = b
  · subst hx
    rw [updChunk_chunk_self]
    exact moveAllModules_chunk_name x a x _ w
  · rw [updChunk_chunk_ne _ _ hx]
    exact moveAllModules_chunk_name b a x _ w

theorem modulesPhase_group (w : World) (a b : Nat) :
    (integrateModulesPhase w a b).group = w.group := by
  unfold integrateModulesPhase
  rw [updChunk_group]
  exact moveAllModules_group b a _ w

theorem attachStep_chunk_ne (v : World) (b a g x : Nat) (hx : x ≠ a) :
    ((addGroup (ChunkGroup.replaceChunk v g b a) a g).chunk x) = v.chunk x := by
  unfold addGroup ChunkGroup.replaceChunk
  rw [updChunk_chunk_ne _ _ hx, updGroup_chunk]

theorem attachStep_chunk_a_modules (v : World) (b a g : Nat) :
    ((addGroup (ChunkGroup.replaceChunk v g b a) a g).chunk a).modules =
      (v.chunk a).modules := by
  unfold addGroup ChunkGroup.replaceChunk
  rw [updChunk_chunk_self]
  dsimp only
  rw [updGroup_chunk]

theorem attachStep_chunk_a_name (v : World) (b a g : Nat) :
    ((addGroup (ChunkGroup.replaceChunk v g b a) a g).chunk a).name =
      (v.chunk a).name := by
  unfold addGroup ChunkGroup.replaceChunk
  rw [updChunk_chunk_self]
  dsimp only
  rw [updGroup_chunk]

theorem attachStep_chunk_a_groups (v : World) (b a g : Nat) :
    ((addGroup (ChunkGroup.replaceChunk v g b a) a g).chunk a).groups =
      setAdd (v.chunk a).groups g := by
  unfold addGroup ChunkGroup.replaceChunk
  rw [updChunk_chunk_self]
  dsimp only
  rw [updGroup_chunk]

theorem attachStep_group_eq (v : World) (b a g g0 : Nat) :
    ((addGroup (ChunkGroup.replaceChunk v g b a) a g).group g0) =
      if g0 = g then
        { v.group g0 with
          chunks := (v.group g0).chunks.map (fun x => if x = b then a else x) }
      else v.group g0 := by
  unfold addGroup ChunkGroup.replaceChunk
  rw [updChunk_group]
  by_cases h : g0 = g
  · subst h
    rw [if_pos rfl, updGroup_group_self]
  · rw [if_neg h, updGroup_group_ne _ _ h]

theorem attachGroups_chunk_modules (b a x : Nat) :
    ∀ (gs : List Nat) (v : World),
      ((attachGroups v b a gs).chunk x).modules = (v.chunk x).modules
  | [], _ => rfl
  | g :: gs, v => by
    show ((attachGroups (addGroup (ChunkGroup.replaceChunk v g b a) a g) b a gs).chunk x).modules =
      (v.chunk x).modules
    rw [attachGroups_chunk_modules b a x gs _]
    by_cases hx : x = a
    · subst hx
      exact attachStep_chunk_a_modules v b x g
    · rw [attachStep_chunk_ne v b a g x hx]

theorem attachGroups_chunk_name (b a x : Nat) :
    ∀ (gs : List Nat) (v : World),
      ((attachGroups v b a gs).chunk x).name = (v.chunk x).name
  | [], _ => rfl
  | g :: gs, v => by
    show ((attachGroups (addGroup (ChunkGroup.replaceChunk v g b a) a g) b a gs).chunk x).name =
      (v.chunk x).name
    rw [attachGroups_chunk_name b a x gs _]
    by_cases hx : x = a
    · subst hx
      exact attachStep_chunk_a_name v b x g
    · rw [attachStep_chunk_ne v b a g x hx]

theorem attachGroups_chunk_ne (b a x : Nat) (hx : x ≠ a) :
    ∀ (gs : List Nat) (v : World), (attachGroups v b a gs).chunk x = v.chunk x
  | [], _ => rfl
  | g :: gs, v => by
    show (attachGroups (addGroup (ChunkGroup.replaceChunk v g b a) a g) b a gs).chunk x =
      v.chunk x
    rw [attachGroups_chunk_ne b a x hx gs _]
    exact attachStep_chunk_ne v b a g x hx

theorem attachGroups_a_groups_mono (b a : Nat) :
    ∀ (gs : List Nat) (v : World) (g0 : Nat),
      g0 ∈ (v.chunk a).groups → g0 ∈ ((attachGroups v b a gs).chunk a).groups
  | [], _, _, h => h
  | g :: gs, v, g0, h => by
    show g0 ∈ ((attachGroups (addGroup (ChunkGroup.replaceChunk v g b a) a g) b a gs).chunk a).groups
    apply attachGroups_a_groups_mono b a gs _ g0
    rw [attachStep_chunk_a_groups v b a g]
    exact mem_setAdd_of_mem h

theorem attachGroups_a_groups_mem (b a : Nat) :
    ∀ (gs : List Nat) (v : World) (g0 : Nat),
      g0 ∈ gs → g0 ∈ ((attachGroups v b a gs).chunk a).groups
  | [], _, g0, h => absurd h (List.not_mem_nil g0)
  | g :: gs, v, g0, h => by
    show g0 ∈ ((attachGroups (addGroup (ChunkGroup.replaceChunk v g b a) a g) b a gs).chunk a).groups
    by_cases hg : g0 ∈ gs
    · exact attachGroups_a_groups_mem b a gs _ g0 hg
    · have hg0 : g0 = g := by
        rcases List.mem_cons.mp h with h1 | h1
        · exact h1
        · exact absurd h1 hg
      subst hg0
      apply attachGroups_a_groups_mono b a gs _ g0
      rw [attachStep_chunk_a_groups v b a g0]
      exact mem_setAdd_self _ _

theorem attachGroups_group_side (b a : Nat) (hab : a ≠ b) :
    ∀ (gs : List Nat) (v : World) (g : Nat),
      ((g ∈ gs ∧ b ∈ (v.group g).chunks) ∨
        (a ∈ (v.group g).chunks ∧ b ∉ (v.group g).chunks)) →
      a ∈ ((attachGroups v b a gs).group g).chunks ∧
        b ∉ ((attachGroups v b a gs).group g).chunks
  | [], v, g, h => by
    rcases h with ⟨h1, _⟩ | ⟨h1, h2⟩
    · exact absurd h1 (List.not_mem_nil g)
    · exact ⟨h1, h2⟩
  | g' :: gs, v, g, h => by
    show a ∈ ((attachGroups (addGroup (ChunkGroup.replaceChunk v g' b a) a g') b a gs).group g).chunks ∧
      b ∉ ((attachGroups (addGroup (ChunkGroup.replaceChunk v g' b a) a g') b a gs).group g).chunks
    apply attachGroups_group_side b a hab gs _ g
    have hstep := attachStep_group_eq v b a g' g
    by_cases hg : g = g'
    · rw [if_pos hg] at hstep
      right
      rw [hstep]
      dsimp only
      rcases h with ⟨_, hb⟩ | ⟨ha, hb⟩
      · exact ⟨mem_map_replace_of_mem hb, not_mem_map_replace hab⟩
      · exact ⟨mem_map_replace_self ha, not_mem_map_replace hab⟩
    · rw [if_neg hg] at hstep
      rw [hstep]
      rcases h with ⟨hmem, hb⟩ | hr
      · left
        refine ⟨?_, hb⟩
        rcases List.mem_cons.mp hmem with h1 | h1
        · exact absurd h1 hg
        · exact h1
      · right
        exact hr

theorem groupsPhase_chunk_modules (w : World) (a b x : Nat) :
    ((integrateGroupsPhase w a b).chunk x).modules = (w.chunk x).modules := by
  unfold integrateGroupsPhase
  by_cases hx : x = b
  · subst hx
    rw [updChunk_chunk_self]
    exact attachGroups_chunk_modules x a x _ w
  · rw [updChunk_chunk_ne _ _ hx]
    exact attachGroups_chunk_modules b a x _ w

theorem groupsPhase_chunk_name (w : World) (a b x : Nat) :
    ((integrateGroupsPhase w a b).chunk x).name = (w.chunk x).name := by
  unfold integrateGroupsPhase
  by_cases hx : x = b
  · subst hx
    rw [updChunk_chunk_self]
    exact attachGroups_chunk_name x a x _ w
  · rw [updChunk_chunk_ne _ _ hx]
    exact attachGroups_chunk_name b a x _ w

theorem groupsPhase_chunk_b_groups (w : World) (a b : Nat) :
    ((integrateGroupsPhase w a b).chunk b).groups = [] := by
  unfold integrateGroupsPhase
  rw [updChunk_chunk_self]

theorem groupsPhase_a_groups (w : World) (a b : Nat) (hab : a ≠ b) :
    ∀ g ∈ (w.chunk b).groups, g ∈ ((integrateGroupsPhase w a b).chunk a).groups := by
  intro g hg
  unfold integrateGroupsPhase
  rw [updChunk_chunk_ne _ _ hab]
  exact attachGroups_a_groups_mem b a _ w g hg

theorem groupsPhase_group_side (w : World) (a b : Nat) (hab : a ≠ b) :
    ∀ g ∈ (w.chunk b).groups, b ∈ (w.group g).chunks →
      a ∈ ((integrateGroupsPhase w a b).group g).chunks ∧
        b ∉ ((integrateGroupsPhase w a b).group g).chunks := by
  intro g hg hb
  unfold integrateGroupsPhase
  rw [updChunk_group]
  exact attachGroups_group_side b a hab _ w g (Or.inl ⟨hg, hb⟩)

theorem namePhase_chunk_modules (w : World) (a b x : Nat) :
    ((integrateNamePhase w a b).chunk x).modules = (w.chunk x).modules := by
  unfold integrateNamePhase
  split
  · by_cases hx : x = a
    · subst hx
      rw [updChunk_chunk_self]
    · rw [updChunk_chunk_ne _ _ hx]
  · rfl

theorem namePhase_chunk_groups (w : World) (a b x : Nat) :
    ((integrateNamePhase w a b).chunk x).groups = (w.chunk x).groups := by
  unfold integrateNamePhase
  split
  · by_cases hx : x = a
    · subst hx
      rw [updChunk_chunk_self]
    · rw [updChunk_chunk_ne _ _ hx]
  · rfl

theorem namePhase_group (w : World) (a b : Nat) :
    (integrateNamePhase w a b).group = w.group := by
  unfold integrateNamePhase
  split <;> rfl

theorem namePhase_name_result (w : World) (a b : Nat) (na nb : String)
    (hna : (w.chunk a).name = some na) (hnb : (w.chunk b).name = some nb)
    (h1 : na ≠ "") (h2 : nb ≠ "") :
    ((integrateNamePhase w a b).chunk a).name = some (mergedName na nb) := by
  unfold integrateNamePhase
  have hcond : (nameTruthy (w.chunk a).name && nameTruthy (w.chunk b).name) = true := by
    rw [hna, hnb]
    simp [nameTruthy, bne_iff_ne]
    exact ⟨h1, h2⟩
  rw [if_pos hcond, updChunk_chunk_self]
  dsimp only
  rw [hna, hnb]
  rfl

/-- World for the self-integration counterexample: chunk 0 holds module 0,
owns no group, has no entry module and no name. -/
def wC5s : World :=
  { chunk := fun i =>
      if i = 0 then { name := none, entryModule := none, modules := [0], groups := [] }
      else emptyChunk
  , group := fun _ => emptyGroup
  , modChunks := fun i => if i = 0 then [0] else []
  , modSize := fun _ => 1 }

/-- World witnessing the amended merge statement: chunks 0 ("aa", module 1)
and 1 ("ab", module 2) both owned by the non-initial group 20, symmetric
edges throughout. -/
def wC5w : World :=
  { chunk := fun i =>
      if i = 0 then { name := some "aa", entryModule := none, modules := [1], groups := [20] }
      else if i = 1 then { name := some "ab", entryModule := none, modules := [2], groups := [20] }
      else emptyChunk
  , group := fun i =>
      if i = 20 then { chunks := [0, 1], parents := [], initFlag := false }
      else emptyGroup
  , modChunks := fun i => if i = 1 then [0] else if i = 2 then [1] else []
  , modSize := fun _ => 1 }

/-- C5 counterexample: for the pair `(a, a)` the claim fails — self
integration succeeds (returns `true`) on an entry-less chunk, yet module 0,
formerly a member of the argument chunk, is a member of neither side
afterwards: the `_modules.clear()` of the argument guts the receiver. -/
theorem c5_self_integration :
    (integrate wC5s 5 0 0).2 = true ∧
      0 ∈ (wC5s.chunk 0).modules ∧
      0 ∉ (((integrate wC5s 5 0 0).1).chunk 0).modules := by
  decide

/-- C5 amended: for distinct chunks `a ≠ b` with the documented symmetric
chunk-group membership on `b`'s side, a succeeding `integrate` leaves `b`
empty, moves every former member of `b` into `a`, clears `b`'s owning-group
set, repoints every former owner of `b` to own `a` (and not `b`), and, when
both chunks are named, gives `a` the shorter name or on equal length the
lexicographically smaller one. -/
theorem c5_integrate_true_merge (w : World) (fuel : Nat) (a b : Nat)
    (hab : a ≠ b)
    (hsym : ∀ g ∈ (w.chunk b).groups, b ∈ (w.group g).chunks)
    (hres : (integrate w fuel a b).2 = true) :
    isEmpty ((integrate w fuel a b).1) b = true ∧
      (∀ m ∈ (w.chunk b).modules, m ∈ (((integrate w fuel a b).1).chunk a).modules) ∧
      (((integrate w fuel a b).1).chunk b).groups = [] ∧
      (∀ g ∈ (w.chunk b).groups,
        g ∈ (((integrate w fuel a b).1).chunk a).groups ∧
        a ∈ (((integrate w fuel a b).1).group g).chunks ∧
        b ∉ (((integrate w fuel a b).1).group g).chunks) ∧
      (∀ na nb, (w.chunk a).name = some na → (w.chunk b).name = some nb →
        na ≠ "" → nb ≠ "" →
        (((integrate w fuel a b).1).chunk a).name = some (mergedName na nb)) := by
  have hfeas : canBeIntegrated w fuel a b = true := by
    by_contra hf
    rw [Bool.not_eq_true] at hf
    simp [integrate, hf] at hres
  have heq : (integrate w fuel a b).1 =
      integrateNamePhase (integrateGroupsPhase (integrateModulesPhase w a b) a b) a b := by
    unfold integrate
    rw [if_pos hfeas]
  rw [heq]
  set P := integrateModulesPhase w a b with hP
  set G := integrateGroupsPhase P a b with hG
  have hGmods : ∀ x, (G.chunk x).modules = (P.chunk x).modules := fun x =>
    groupsPhase_chunk_modules P a b x
  have hNmods : ∀ x, ((integrateNamePhase G a b).chunk x).modules = (G.chunk x).modules :=
    fun x => namePhase_chunk_modules G a b x
  have hNgroups : ∀ x, ((integrateNamePhase G a b).chunk x).groups = (G.chunk x).groups :=
    fun x => namePhase_chunk_groups G a b x
  have hNgroup : (integrateNamePhase G a b).group = G.group := namePhase_group G a b
  refine ⟨?_, ?_, ?_, ?_, ?_⟩
  · rw [isEmpty, hNmods b, hGmods b, modulesPhase_chunk_b_modules w a b]
    rfl
  · intro m hm
    rw [hNmods a, hGmods a]
    exact modulesPhase_mem_a w a b hab m hm
  · rw [hNgroups b, hG]
    exact groupsPhase_chunk_b_groups P a b
  · intro g hg
    have hgP : g ∈ (P.chunk b).groups := by
      rw [hP, modulesPhase_chunk_groups w a b b]
      exact hg
    have hbP : b ∈ (P.group g).chunks := by
      rw [hP, modulesPhase_group w a b]
      exact hsym g hg
    refine ⟨?_, ?_⟩
    · rw [hNgroups a, hG]
      exact groupsPhase_a_groups P a b hab g hgP
    · rw [hNgroup, hG]
      exact groupsPhase_group_side P a b hab g hgP hbP
  · intro na nb hna hnb h1 h2
    have hGa : (G.chunk a).name = some na := by
      rw [hG, groupsPhase_chunk_name P a b a, hP, modulesPhase_chunk_name w a b a]
      exact hna
    have hGb : (G.chunk b).name = some nb := by
      rw [hG, groupsPhase_chunk_name P a b b, hP, modulesPhase_chunk_name w a b b]
      exact hnb
    exact namePhase_name_result G a b na nb hGa hGb h1 h2

/-- C5 witness: the concrete symmetric two-chunk world realizes the amended
merge statement, including the equal-length name tie-break ("aa" beats
"ab"). -/
theorem c5_witness :
    (0 : Nat) ≠ 1 ∧
      (∀ g ∈ (wC5w.chunk 1).groups, 1 ∈ (wC5w.group g).chunks) ∧
      (integrate wC5w 5 0 1).2 = true ∧
      (isEmpty ((integrate wC5w 5 0 1).1) 1 = true ∧
        (∀ m ∈ (wC5w.chunk 1).modules, m ∈ (((integrate wC5w 5 0 1).1).chunk 0).modules) ∧
        (((integrate wC5w 5 0 1).1).chunk 1).groups = [] ∧
        (∀ g ∈ (wC5w.chunk 1).groups,
          g ∈ (((integrate wC5w 5 0 1).1).chunk 0).groups ∧
          0 ∈ (((integrate wC5w 5 0 1).1).group g).chunks ∧
          1 ∉ (((integrate wC5w 5 0 1).1).group g).chunks) ∧
        (∀ na nb, (wC5w.chunk 0).name = some na → (wC5w.chunk 1).name = some nb →
          na ≠ "" → nb ≠ "" →
          (((integrate wC5w 5 0 1).1).chunk 0).name = some (mergedName na nb))) :=
  ⟨by decide, by decide, by decide,
    c5_integrate_true_merge wC5w 5 0 1 (by decide) (by decide) (by decide)⟩

end WebpackCore
